import Mathlib

/-!
Verification development for `align.py` of the bornholmsk repository.

The script aligns two word-embedding spaces: it loads the spaces, builds a
bilingual pair list (unsupervised vocabulary intersection and/or a TSV
dictionary), forms paired training matrices, learns an orthogonal transform
via SVD (Procrustes), applies it, optionally inserts out-of-vocabulary words,
and exports the result.

Embedding conventions:
* an embedding space (the `FastVector` object of `fasttext.py`, which is repo
  code not present under `src/`) is modelled from the spec as a mapping from
  word to vector, here an association list `EmbSpace α`;
* numpy float64 arithmetic is idealised as exact real arithmetic `ℝ` in the
  numeric components, and vector payloads are a type parameter `α` in the
  pipeline components (which never perform arithmetic on them);
* the on-disk pickle store is modelled as an association list from file path
  to the pickled space.
-/

namespace Bornholmsk

/-- Modelled from the spec: an Embedding Space is a mapping from word to dense
vector ("a mapping from word (string) to a dense numeric vector"); the
`FastVector` class itself is not under `src/`.  We model it as an association
list from word to payload `α`. -/
abbrev EmbSpace (α : Type) := List (String × α)

/-- Modelled from the spec: lookup of a word's vector in a space
(`space[word]` on a `FastVector`); `none` when the word is absent (a Python
`KeyError`). -/
def lookupVec {α : Type} (d : EmbSpace α) (w : String) : Option α :=
  match d with
  | [] => none
  | (w0, v0) :: rest => if w0 = w then some v0 else lookupVec rest w

/-- Modelled from the spec: membership of a word in a space
(`word in space`, backed by `word2id`). -/
def hasWord {α : Type} (d : EmbSpace α) (w : String) : Bool :=
  (lookupVec d w).isSome

/-- Modelled from the spec: the vocabulary of a space,
`set(space.word2id.keys())` in the script (lines 77-78). -/
def wordsOf {α : Type} (d : EmbSpace α) : List String :=
  (d.map Prod.fst).dedup

/-! ### The pickle cache (`cached_load_vecs`, `align.py` lines 51-61)

The cache is a set of on-disk pickle files, modelled as an association list
from path to pickled space.  `parse` stands for the `FastVector` constructor
(parsing a vector file), modelled from the spec as a total map from path to
space.  The Python function body is:

  if os.path.isfile(filename + '.pickle'): return pickle.load(filename + '.pickle')
  else: vecs = FastVector(filename); pickle.dump(vecs, open(filename + 'pickle', 'wb'))

On the else-branch the function body ends without a `return` statement, so
Python returns `None`; the embedding returns `none` there. -/

/-- Key the cache is read under (`align.py` lines 52-53). -/
def cacheReadKey (filename : String) : String := filename ++ ".pickle"

/-- Key the cache is written under (`align.py` line 59). -/
def cacheWriteKey (filename : String) : String := filename ++ "pickle"

/-- Embedding of `cached_load_vecs` (`align.py` lines 51-61).  Returns the
value the Python function returns (as an `Option`) together with the pickle
store after the call. -/
def cached_load_vecs {α : Type} (parse : String → EmbSpace α)
    (disk : List (String × EmbSpace α)) (filename : String) :
    Option (EmbSpace α) × List (String × EmbSpace α) :=
  match disk.lookup (cacheReadKey filename) with
  | some sp => (some sp, disk)
  | none =>
      let vecs := parse filename
      (none, (cacheWriteKey filename, vecs) :: disk)

/-- Concrete parser used in witnesses: every file parses to a one-word space. -/
def parse0 : String → EmbSpace (List ℚ) := fun _ => [("w", [1])]

/-- The claim C1 fails here: on a cache miss the function returns `none`. -/
theorem C1_cache_miss_returns_none :
    (cached_load_vecs parse0 [] "vectors.vec").1 = none := rfl

/-- C2: `cached_load_vecs` writes under the key `filename ++ "pickle"` but
reads under `filename ++ ".pickle"`; these keys differ for every filename, so
a read that missed still misses after the write performed by a previous run
on the same filename (the cache can never hit from its own writes). -/
theorem C2_cache_write_never_read {α : Type} (parse : String → EmbSpace α)
    (disk : List (String × EmbSpace α)) (filename : String) :
    cacheWriteKey filename ≠ cacheReadKey filename ∧
    (disk.lookup (cacheReadKey filename) = none →
      ((cached_load_vecs parse (cached_load_vecs parse disk filename).2
          filename).1 = none)) := by
  have hk : cacheWriteKey filename ≠ cacheReadKey filename := by
    intro h
    have hl := congrArg String.length h
    simp only [cacheWriteKey, cacheReadKey, String.length_append] at hl
    exact absurd (Nat.add_left_cancel hl) (by decide)
  refine ⟨hk, fun hmiss => ?_⟩
  have h1 : (cached_load_vecs parse disk filename).2 =
      (cacheWriteKey filename, parse filename) :: disk := by
    simp [cached_load_vecs, hmiss]
  rw [h1]
  have hne : (cacheReadKey filename == cacheWriteKey filename) = false := by
    simp [Ne.symm hk]
  have h2 : ((cacheWriteKey filename, parse filename) :: disk).lookup
      (cacheReadKey filename) = none := by
    simp [List.lookup, hne, hmiss]
  simp [cached_load_vecs, h2]

/-- Witness for C2 at a concrete filename and an empty pickle store. -/
theorem C2_cache_write_never_read_witness :
    ([] : List (String × EmbSpace ℚ)).lookup (cacheReadKey "vecs.txt") = none ∧
    (cached_load_vecs parse0 (cached_load_vecs parse0 [] "vecs.txt").2
        "vecs.txt").1 = none :=
  ⟨rfl, (C2_cache_write_never_read parse0 [] "vecs.txt").2 rfl⟩

/-! ### Training matrix builder (`make_training_matrices`, `align.py` lines 16-31)

For each pair `(source, target)` of the bilingual dictionary (in order), if
`source in source_dictionary and target in target_dictionary`, the code
appends `source_dictionary[source]` to the source matrix and
`target_dictionary[target]` to the target matrix, then wraps both lists in
`np.array`.  The embedding returns the two row lists. -/

/-- Embedding of `make_training_matrices` (`align.py` lines 16-31). -/
def make_training_matrices {α : Type} [Inhabited α]
    (source_dictionary target_dictionary : EmbSpace α)
    (bilingual_dictionary : List (String × String)) : List α × List α :=
  match bilingual_dictionary with
  | [] => ([], [])
  | (source, target) :: rest =>
      let (sm, tm) := make_training_matrices source_dictionary target_dictionary rest
      if hasWord source_dictionary source && hasWord target_dictionary target then
        ((lookupVec source_dictionary source).getD default :: sm,
         (lookupVec target_dictionary target).getD default :: tm)
      else
        (sm, tm)

/-- The pairs the builder keeps: both words present in their spaces. -/
def surviving {α : Type} (source_dictionary target_dictionary : EmbSpace α)
    (pairs : List (String × String)) : List (String × String) :=
  pairs.filter
    (fun p => hasWord source_dictionary p.1 && hasWord target_dictionary p.2)

theorem make_training_matrices_spec {α : Type} [Inhabited α]
    (src tgt : EmbSpace α) (pairs : List (String × String)) :
    (make_training_matrices src tgt pairs).1 =
      (surviving src tgt pairs).map (fun p => (lookupVec src p.1).getD default) ∧
    (make_training_matrices src tgt pairs).2 =
      (surviving src tgt pairs).map (fun p => (lookupVec tgt p.2).getD default) := by
  induction pairs with
  | nil => exact ⟨rfl, rfl⟩
  | cons hd rest ih =>
      obtain ⟨s, t⟩ := hd
      by_cases h : (hasWord src s && hasWord tgt t) = true
      · simp [make_training_matrices, surviving, List.filter_cons, h, ih.1, ih.2]
      · simp only [Bool.not_eq_true] at h
        simp [make_training_matrices, surviving, List.filter_cons, h, ih.1, ih.2]

/-- C6: the two matrices have a common row count equal to the number of pairs
whose source word is in the source space and whose target word is in the
target space, and row `i` of each matrix is the vector of the `i`-th
surviving pair, in the pairs' original relative order. -/
theorem C6_training_matrix_rows {α : Type} [Inhabited α]
    (src tgt : EmbSpace α) (pairs : List (String × String)) :
    (make_training_matrices src tgt pairs).1 =
      (surviving src tgt pairs).map (fun p => (lookupVec src p.1).getD default) ∧
    (make_training_matrices src tgt pairs).2 =
      (surviving src tgt pairs).map (fun p => (lookupVec tgt p.2).getD default) ∧
    (make_training_matrices src tgt pairs).1.length = (surviving src tgt pairs).length ∧
    (make_training_matrices src tgt pairs).2.length = (surviving src tgt pairs).length := by
  obtain ⟨h1, h2⟩ := make_training_matrices_spec src tgt pairs
  exact ⟨h1, h2, by rw [h1, List.length_map], by rw [h2, List.length_map]⟩

/-! ### Shape of `np.array` on the produced row lists (claim C10)

`np.array` on a non-empty list of `N` equal-length (`D`) one-dimensional
vectors yields shape `(N, D)`; on the empty list it yields shape `(0,)` —
the embedding dimension is lost. -/

/-- Shape of `np.array rows` for a rectangular list of row vectors, after the
numpy semantics: `[]` gives shape `(0,)`, otherwise `(N, D)`. -/
def npArrayShape {β : Type} (rows : List (List β)) : List Nat :=
  match rows with
  | [] => [0]
  | r :: rest => [rest.length + 1, r.length]

/-- C10: when no pair survives the membership filter, both training matrices
are empty and `np.array` gives them shape `(0,)`, not `(0, D)` for any `D`. -/
theorem C10_empty_matrices_shape {β : Type} [Inhabited β]
    (src tgt : EmbSpace (List β)) (pairs : List (String × String))
    (h : surviving src tgt pairs = []) :
    npArrayShape (make_training_matrices src tgt pairs).1 = [0] ∧
    npArrayShape (make_training_matrices src tgt pairs).2 = [0] ∧
    ∀ D : Nat, npArrayShape (make_training_matrices src tgt pairs).1 ≠ [0, D] := by
  obtain ⟨h1, h2⟩ := make_training_matrices_spec src tgt pairs
  rw [h, List.map_nil] at h1 h2
  refine ⟨by rw [h1]; rfl, by rw [h2]; rfl, fun D hcontra => ?_⟩
  rw [h1] at hcontra
  simp [npArrayShape] at hcontra

/-- Witness for C10 at a concrete input with one non-surviving pair. -/
theorem C10_empty_matrices_shape_witness :
    surviving [("a", [(1 : ℚ)])] [("b", [(2 : ℚ)])] [("x", "y")] = [] ∧
    (npArrayShape (make_training_matrices [("a", [(1 : ℚ)])] [("b", [(2 : ℚ)])]
        [("x", "y")]).1 = [0] ∧
     npArrayShape (make_training_matrices [("a", [(1 : ℚ)])] [("b", [(2 : ℚ)])]
        [("x", "y")]).2 = [0] ∧
     ∀ D : Nat, npArrayShape (make_training_matrices [("a", [(1 : ℚ)])]
        [("b", [(2 : ℚ)])] [("x", "y")]).1 ≠ [0, D]) :=
  ⟨by decide, C10_empty_matrices_shape _ _ _ (by decide)⟩

/-! ### Unsupervised pair generation (`align.py` lines 89-94)

The script computes `overlap = list(source_words & target_words)` on the two
vocabulary sets and builds `new_entries = [(entry, entry) for entry in
overlap]`.  Python sets hold each element once and iterate in unspecified
order; the set of generated pairs is embedded as a `Finset`. -/

/-- Embedding of the unsupervised pair block: one pair `(w, w)` for each word
of the vocabulary intersection (`align.py` lines 91-92). -/
def unsupPairs (sourceWords targetWords : Finset String) :
    Finset (String × String) :=
  (sourceWords ∩ targetWords).image (fun w => (w, w))

/-- C8: the unsupervised pairs are exactly one pair `(w, w)` for every word
`w` present in both vocabularies, and nothing else; with vocabularies
`{"a","b"}` and `{"a","c"}` they are exactly `{("a","a")}`. -/
theorem C8_unsup_pairs_exact :
    (∀ (s t : Finset String) (p : String × String),
        p ∈ unsupPairs s t ↔ p.1 ∈ s ∧ p.1 ∈ t ∧ p.2 = p.1) ∧
    unsupPairs {"a", "b"} {"a", "c"} = {("a", "a")} := by
  constructor
  · intro s t p
    constructor
    · intro hp
      obtain ⟨w, hw, hpw⟩ := Finset.mem_image.mp hp
      obtain ⟨hws, hwt⟩ := Finset.mem_inter.mp hw
      subst hpw
      exact ⟨hws, hwt, rfl⟩
    · rintro ⟨hs, ht, hdiag⟩
      refine Finset.mem_image.mpr ⟨p.1, Finset.mem_inter.mpr ⟨hs, ht⟩, ?_⟩
      exact Prod.ext rfl hdiag.symm
  · decide

/-! ### The insertion loop (`align.py` lines 127-135)

For each queued pair `(new_source, anchor)` the loop skips `new_source` when
it contains a space, otherwise calls
`source_vecs.insert(new_source, target_vecs[anchor], vary=True)`; afterwards
the script prints `'inserted', len(to_insert), 'words'`.  `FastVector.insert`
is repo code not under `src/`; modelled from the spec ("insert as a new entry
in the source space keyed by new_word", with a perturbed copy of the anchor's
target-space vector) as appending an entry whose vector is `perturb` of the
anchor's vector.  `target_vecs[anchor]` on a missing anchor is a `KeyError`,
so the loop is embedded as returning `none` in that case. -/

/-- The Python test `' ' in new_source`: a space among the characters. -/
def hasSpaceChar (s : String) : Bool := s.data.contains ' '

/-- Embedding of the insertion loop (`align.py` lines 128-134).  Returns the
source space after the loop together with the number of insertions actually
performed, or `none` if an anchor lookup raises. -/
def runInsertLoop {α : Type} (perturb : α → α) (source_vecs target_vecs : EmbSpace α) :
    List (String × String) → Option (EmbSpace α × Nat)
  | [] => some (source_vecs, 0)
  | (new_source, anchor) :: rest =>
      if hasSpaceChar new_source then
        runInsertLoop perturb source_vecs target_vecs rest
      else
        match lookupVec target_vecs anchor with
        | none => none
        | some v =>
            (runInsertLoop perturb (source_vecs ++ [(new_source, perturb v)])
                target_vecs rest).map (fun r => (r.1, r.2 + 1))

/-- Embedding of the count the script reports at `align.py` line 135:
`print('inserted', len(to_insert), 'words')` reports the queue length. -/
def insertLoopReport (to_insert : List (String × String)) : Nat :=
  to_insert.length

/-- The queue entries that actually get inserted: those without a space. -/
def insertedPairs (to_insert : List (String × String)) : List (String × String) :=
  to_insert.filter (fun p => !hasSpaceChar p.1)

theorem runInsertLoop_spec {α : Type} [Inhabited α] (perturb : α → α)
    (target_vecs : EmbSpace α) (to_insert : List (String × String))
    (hanchor : ∀ p ∈ to_insert, ¬hasSpaceChar p.1 = true →
      (lookupVec target_vecs p.2).isSome) :
    ∀ source_vecs : EmbSpace α,
      runInsertLoop perturb source_vecs target_vecs to_insert =
        some (source_vecs ++ (insertedPairs to_insert).map
            (fun p => (p.1, perturb ((lookupVec target_vecs p.2).getD default))),
          (insertedPairs to_insert).length) := by
  induction to_insert with
  | nil => intro sv; simp [runInsertLoop, insertedPairs]
  | cons hd rest ih =>
      intro sv
      obtain ⟨nw, anch⟩ := hd
      have hrest : ∀ p ∈ rest, ¬hasSpaceChar p.1 = true →
          (lookupVec target_vecs p.2).isSome :=
        fun p hp => hanchor p (List.mem_cons_of_mem _ hp)
      by_cases hsp : hasSpaceChar nw = true
      · simp [runInsertLoop, hsp, insertedPairs, List.filter_cons]
        have := ih hrest sv
        simpa [insertedPairs] using this
      · have hsome : (lookupVec target_vecs anch).isSome := by
          exact hanchor (nw, anch) (List.mem_cons_self _ _) (by simpa using hsp)
        obtain ⟨v, hv⟩ := Option.isSome_iff_exists.mp hsome
        have := ih hrest (sv ++ [(nw, perturb v)])
        simp [runInsertLoop, hsp, hv, insertedPairs, List.filter_cons, this]

/-- The claim C4 fails here: queue `[("a b", "x")]` performs no insertion
(the space skip), so the number of words actually inserted is `0`, yet the
count the script reports is the queue length `1`. -/
theorem C4_counterexample :
    runInsertLoop (id : List ℚ → List ℚ) [] [("x", [(1 : ℚ)])] [("a b", "x")] =
      some ([], 0) ∧
    insertLoopReport [("a b", "x")] = 1 ∧
    insertLoopReport [("a b", "x")] ≠
      ((runInsertLoop (id : List ℚ → List ℚ) [] [("x", [(1 : ℚ)])]
          [("a b", "x")]).getD ([], 0)).2 := by
  refine ⟨rfl, rfl, ?_⟩
  decide

/-- C4 amended: every queued pair whose new word contains a space performs no
insertion (the final space extends the original by entries for exactly the
space-free pairs, in order), the number of insertions is the number of
space-free pairs, and the count the script reports is the full queue length —
which can exceed the number actually inserted. -/
theorem C4_insert_loop_amended {α : Type} [Inhabited α] (perturb : α → α)
    (source_vecs target_vecs : EmbSpace α) (to_insert : List (String × String))
    (hanchor : ∀ p ∈ to_insert, ¬hasSpaceChar p.1 = true →
      (lookupVec target_vecs p.2).isSome) :
    runInsertLoop perturb source_vecs target_vecs to_insert =
      some (source_vecs ++ (insertedPairs to_insert).map
          (fun p => (p.1, perturb ((lookupVec target_vecs p.2).getD default))),
        (insertedPairs to_insert).length) ∧
    insertLoopReport to_insert = to_insert.length ∧
    (insertedPairs to_insert).length ≤ to_insert.length := by
  refine ⟨runInsertLoop_spec perturb target_vecs to_insert hanchor source_vecs,
    rfl, ?_⟩
  exact List.length_filter_le _ _

/-- Witness for C4 amended: a two-element queue where only the space-free
pair is inserted, while the report says 2. -/
theorem C4_insert_loop_amended_witness :
    (∀ p ∈ [("a b", "x"), ("c", "x")], ¬hasSpaceChar p.1 = true →
      (lookupVec [("x", [(1 : ℚ)])] p.2).isSome) ∧
    runInsertLoop (id : List ℚ → List ℚ) [] [("x", [(1 : ℚ)])]
        [("a b", "x"), ("c", "x")] = some ([("c", [(1 : ℚ)])], 1) ∧
    insertLoopReport [("a b", "x"), ("c", "x")] = 2 := by
  refine ⟨by decide, ?_, ?_⟩
  · have h := C4_insert_loop_amended (id : List ℚ → List ℚ) []
      [("x", [(1 : ℚ)])] [("a b", "x"), ("c", "x")] (by decide)
    rw [h.1]
    decide
  · rfl

/-! ### The main script flow (`align.py` lines 63-143) and claim C3

After argument parsing the script is straight-line: load both spaces, build
the bilingual dictionary (lines 85-113), form the training matrices
(lines 117-120), call `learn_transformation` — whose body unconditionally
computes the matrix product and calls `np.linalg.svd` (lines 44-46) — apply
the transform, optionally run the insertion loop, and export.  There is no
check of the training matrices anywhere, so no run aborts before the SVD is
attempted.  The flow is embedded as an event trace over already-loaded
spaces (`cached_load_vecs` in fact returns `None` on every fresh load, see
C1; the trace models the pipeline from loaded spaces onward, as the spec
treats loading as an external collaborator).  `Step.abortRun` exists so that
an abort would be expressible in a trace; the script never produces it. -/

/-- The command-line arguments relevant to control flow
(`align.py` lines 63-70): `--unsup`, `--biling_dict` (its lines, when
given), `--insert`. -/
structure ScriptArgs where
  unsup : Bool
  biling_dict : Option (List String)
  insert : Bool

/-- Embedding of the dictionary-file loop (`align.py` lines 98-112): strip
the line, skip blanks, split on tab, skip lines without exactly two fields,
strip both fields; a pair with both words known goes to the bilingual
dictionary, otherwise with known target word and `--insert` it is queued for
insertion.  Returns (bilingual pairs, insertion queue), in line order. -/
def processDictLines {α : Type} (source_vecs target_vecs : EmbSpace α)
    (insertFlag : Bool) : List String → List (String × String) × List (String × String)
  | [] => ([], [])
  | line :: rest =>
      let (bd, ti) := processDictLines source_vecs target_vecs insertFlag rest
      let stripped := line.trim
      if stripped = "" then (bd, ti)
      else
        let words := stripped.splitOn "\t"
        if words.length ≠ 2 then (bd, ti)
        else
          let src_word := (words.getD 0 "").trim
          let target_word := (words.getD 1 "").trim
          if hasWord source_vecs src_word && hasWord target_vecs target_word then
            ((src_word, target_word) :: bd, ti)
          else if hasWord target_vecs target_word && insertFlag then
            (bd, (src_word, target_word) :: ti)
          else (bd, ti)

/-- Embedding of `list(source_words & target_words)` (`align.py` line 91);
`wordsOf` is duplicate-free, matching Python set semantics. -/
def overlapWords {α : Type} (source_vecs target_vecs : EmbSpace α) : List String :=
  (wordsOf source_vecs).filter (fun w => hasWord target_vecs w)

/-- The bilingual dictionary the script builds (`align.py` lines 85-113):
unsupervised diagonal pairs (when `--unsup`) followed by the supervised
pairs of the dictionary file (when given). -/
def bilingualDictOf {α : Type} (args : ScriptArgs)
    (source_vecs target_vecs : EmbSpace α) : List (String × String) :=
  (if args.unsup then
      (overlapWords source_vecs target_vecs).map (fun w => (w, w))
    else []) ++
  (match args.biling_dict with
   | some lines => (processDictLines source_vecs target_vecs args.insert lines).1
   | none => [])

/-- The insertion queue the script builds (`align.py` lines 87, 111-112). -/
def toInsertOf {α : Type} (args : ScriptArgs)
    (source_vecs target_vecs : EmbSpace α) : List (String × String) :=
  match args.biling_dict with
  | some lines => (processDictLines source_vecs target_vecs args.insert lines).2
  | none => []

/-- Events of one run of the script, in program order. -/
inductive Step where
  | loadVectors
  | buildDict (npairs : Nat)
  | formMatrices (sourceShape targetShape : List Nat)
  | abortRun
  | svdAttempt (sourceShape targetShape : List Nat)
  | applyTransform
  | insertLoopStep (reported : Nat)
  | exportVecs
  deriving DecidableEq

/-- Trace of the script's main flow (`align.py` lines 72-143) over loaded
spaces: the statement sequence is straight-line, so every run (whatever the
matrices look like) passes from forming the matrices directly to the SVD
attempt inside `learn_transformation`; no conditional abort exists. -/
def mainTrace {β : Type} [Inhabited β] (args : ScriptArgs)
    (source_vecs target_vecs : EmbSpace (List β)) : List Step :=
  let bd := bilingualDictOf args source_vecs target_vecs
  let m := make_training_matrices source_vecs target_vecs bd
  [Step.loadVectors, Step.buildDict bd.length,
   Step.formMatrices (npArrayShape m.1) (npArrayShape m.2),
   Step.svdAttempt (npArrayShape m.1) (npArrayShape m.2),
   Step.applyTransform] ++
  (if args.insert then
      [Step.insertLoopStep
        (insertLoopReport (toInsertOf args source_vecs target_vecs))]
    else []) ++
  [Step.exportVecs]

/-- Arguments with no unsupervised pairs, no dictionary, no insertion. -/
def argsPlain : ScriptArgs := ⟨false, none, false⟩

/-- One-word source space with vocabulary disjoint from `spaceB`. -/
def spaceA : EmbSpace (List ℚ) := [("a", [1])]

/-- One-word target space with vocabulary disjoint from `spaceA`. -/
def spaceB : EmbSpace (List ℚ) := [("b", [1])]

/-- The claim C3 fails here: with disjoint vocabularies and no dictionary the
training matrices are empty (shape `(0,)`), yet the run reaches the SVD
attempt and never aborts. -/
theorem C3_counterexample :
    surviving spaceA spaceB (bilingualDictOf argsPlain spaceA spaceB) = [] ∧
    npArrayShape (make_training_matrices spaceA spaceB
        (bilingualDictOf argsPlain spaceA spaceB)).1 = [0] ∧
    Step.svdAttempt [0] [0] ∈ mainTrace argsPlain spaceA spaceB ∧
    Step.abortRun ∉ mainTrace argsPlain spaceA spaceB := by
  decide

/-- C3 amended: when no pair survives (empty training matrices), the pipeline
does not abort: the trace still contains the SVD attempt, on matrices of
shape `(0,)`, and contains no abort at all. -/
theorem C3_degenerate_reaches_svd {β : Type} [Inhabited β] (args : ScriptArgs)
    (source_vecs target_vecs : EmbSpace (List β))
    (hdeg : surviving source_vecs target_vecs
      (bilingualDictOf args source_vecs target_vecs) = []) :
    Step.svdAttempt [0] [0] ∈ mainTrace args source_vecs target_vecs ∧
    Step.abortRun ∉ mainTrace args source_vecs target_vecs := by
  obtain ⟨h1, h2⟩ := make_training_matrices_spec source_vecs target_vecs
    (bilingualDictOf args source_vecs target_vecs)
  rw [hdeg, List.map_nil] at h1 h2
  cases hins : args.insert <;>
    simp [mainTrace, h1, h2, npArrayShape, hins]

/-- Witness for C3 amended at the concrete degenerate run. -/
theorem C3_degenerate_reaches_svd_witness :
    surviving spaceA spaceB (bilingualDictOf argsPlain spaceA spaceB) = [] ∧
    (Step.svdAttempt [0] [0] ∈ mainTrace argsPlain spaceA spaceB ∧
     Step.abortRun ∉ mainTrace argsPlain spaceA spaceB) :=
  ⟨by decide, C3_degenerate_reaches_svd argsPlain spaceA spaceB (by decide)⟩

/-! ### The vector normalizer (`normalized`, `align.py` lines 10-14)

numpy float64 arithmetic is idealised as exact real arithmetic.  For a
matrix argument and the default `axis=-1`, `np.linalg.norm(a, order, axis)`
computes the order-`p` norm of each row, `(sum(abs(x)**p))**(1/p)` (the
formula numpy uses for every numeric order; the embedding covers orders
`0 < p`, which includes the default `order=2`).  The code then replaces zero
norms by 1 (`l2[l2==0] = 1`) and divides each row by its norm. -/

/-- Order-`p` norm of a row, after numpy's formula
`(sum(abs(x)**p))**(1./p)`. -/
noncomputable def rowNorm (p : ℝ) {n : ℕ} (v : Fin n → ℝ) : ℝ :=
  (∑ j, |v j| ^ p) ^ (1 / p)

/-- Embedding of `normalized` (`align.py` lines 10-14): each entry is divided
by its row's norm, with a zero norm replaced by 1 first. -/
noncomputable def normalized {m n : ℕ} (p : ℝ) (a : Matrix (Fin m) (Fin n) ℝ) :
    Matrix (Fin m) (Fin n) ℝ :=
  Matrix.of fun i j =>
    a i j / (if rowNorm p (a i) = 0 then 1 else rowNorm p (a i))

theorem rowNorm_nonneg (p : ℝ) {n : ℕ} (v : Fin n → ℝ) : 0 ≤ rowNorm p v :=
  Real.rpow_nonneg
    (Finset.sum_nonneg fun _ _ => Real.rpow_nonneg (abs_nonneg _) p) _

/-- C7: `normalized` returns a matrix of the same shape (by typing) in which
every row with nonzero order-`p` norm has unit order-`p` norm, and every row
with zero norm is returned unchanged (the zero norm is replaced by 1 before
dividing, so the division is always defined).  Covers every order `0 < p`,
including the default `p = 2`. -/
theorem C7_normalized_rows {m n : ℕ} (p : ℝ) (hp : 0 < p)
    (a : Matrix (Fin m) (Fin n) ℝ) (i : Fin m) :
    (rowNorm p (a i) ≠ 0 → rowNorm p (normalized p a i) = 1) ∧
    (rowNorm p (a i) = 0 → ∀ j, normalized p a i j = a i j) := by
  constructor
  · intro hne
    have hc0 : 0 ≤ rowNorm p (a i) := rowNorm_nonneg p _
    have hc : 0 < rowNorm p (a i) := lt_of_le_of_ne hc0 (Ne.symm hne)
    have hrow : ∀ j, normalized p a i j = a i j / rowNorm p (a i) := by
      intro j; simp [normalized, hne]
    have hS0 : 0 ≤ ∑ j, |a i j| ^ p :=
      Finset.sum_nonneg fun _ _ => Real.rpow_nonneg (abs_nonneg _) p
    have hSne : (∑ j, |a i j| ^ p) ≠ 0 := by
      intro h0
      apply hne
      rw [rowNorm, h0, Real.zero_rpow]
      exact one_div_ne_zero hp.ne'
    have hterm : ∀ j, |normalized p a i j| ^ p =
        |a i j| ^ p / rowNorm p (a i) ^ p := by
      intro j
      rw [hrow j, abs_div, abs_of_pos hc,
        Real.div_rpow (abs_nonneg _) hc0]
    have hcp : rowNorm p (a i) ^ p = ∑ j, |a i j| ^ p := by
      rw [rowNorm, ← Real.rpow_mul hS0, one_div, inv_mul_cancel₀ hp.ne',
        Real.rpow_one]
    rw [rowNorm, Finset.sum_congr rfl fun j _ => hterm j, ← Finset.sum_div,
      hcp, div_self hSne, Real.one_rpow]
  · intro hz j
    simp [normalized, hz]

/-- Concrete unit-norm evaluation used by witnesses: when the squared terms
sum to 1 the row norm is 1. -/
theorem rowNorm_eq_one_of_sum {n : ℕ} (p : ℝ) (v : Fin n → ℝ)
    (h : (∑ j, |v j| ^ p) = 1) : rowNorm p v = 1 := by
  rw [rowNorm, h, Real.one_rpow]

/-- Row `(0, 1)` has unit order-2 norm. -/
theorem rowNorm_row01 : rowNorm 2 ((!![0, 1] : Matrix (Fin 1) (Fin 2) ℝ) 0) = 1 := by
  apply rowNorm_eq_one_of_sum
  rw [Fin.sum_univ_two]
  norm_num [Real.zero_rpow, Real.one_rpow]

/-- Witness for C7 at the row `(0, 1)` with the default order `p = 2`. -/
theorem C7_normalized_rows_witness :
    (0 : ℝ) < 2 ∧
    rowNorm 2 ((!![0, 1] : Matrix (Fin 1) (Fin 2) ℝ) 0) ≠ 0 ∧
    rowNorm 2 (normalized 2 (!![0, 1] : Matrix (Fin 1) (Fin 2) ℝ) 0) = 1 :=
  ⟨by norm_num, by rw [rowNorm_row01]; exact one_ne_zero,
    (C7_normalized_rows 2 (by norm_num) !![0, 1] 0).1
      (by rw [rowNorm_row01]; exact one_ne_zero)⟩

/-! ### The Procrustes aligner (`learn_transformation`, `align.py` lines 33-49)

The code row-normalizes both matrices (default `normalize_vectors=True`),
computes `product = source_matrix.T @ target_matrix`, calls
`U, s, V = np.linalg.svd(product)` and returns `np.matmul(U, V)`.
`np.linalg.svd` is a library call; it is embedded as an oracle function
`svd` handed to `learn_transformation`, constrained in the theorems by the
numpy contract: for `svd M = (U, s, Vh)` the factorization
`M = U @ diag(s) @ Vh` holds with `U` and `Vh` orthogonal — numpy's third
output `Vh` is the TRANSPOSED right-singular-vector matrix (`vh = v.T` in
numpy's documentation).  The code thus returns `U * Vh`, which in the
`M = U·Σ·Vᵗ` convention of the spec is `U·Vᵗ`. -/

/-- Embedding of `learn_transformation` (`align.py` lines 33-49), with the
`np.linalg.svd` call abstracted as the oracle `svd`. -/
noncomputable def learn_transformation {m n : ℕ}
    (svd : Matrix (Fin n) (Fin n) ℝ →
      Matrix (Fin n) (Fin n) ℝ × (Fin n → ℝ) × Matrix (Fin n) (Fin n) ℝ)
    (source_matrix target_matrix : Matrix (Fin m) (Fin n) ℝ)
    (normalize_vectors : Bool) : Matrix (Fin n) (Fin n) ℝ :=
  let source := if normalize_vectors then normalized 2 source_matrix else source_matrix
  let target := if normalize_vectors then normalized 2 target_matrix else target_matrix
  let product := source.transpose * target
  (svd product).1 * (svd product).2.2

/-- The transformation the claim (and spec section 4.4) describes: return
`T = U × V` where `V` is the matrix of right singular vectors of
`M = U·Σ·Vᵗ` used WITHOUT transposition.  Under the numpy contract the
oracle's third output is `Vᵗ`, so the right-singular-vector matrix is its
transpose, and the claimed result is `U * Vhᵗ`.  This definition follows the
spec's words, to be compared with `learn_transformation` above. -/
noncomputable def learn_transformation_claim {m n : ℕ}
    (svd : Matrix (Fin n) (Fin n) ℝ →
      Matrix (Fin n) (Fin n) ℝ × (Fin n → ℝ) × Matrix (Fin n) (Fin n) ℝ)
    (source_matrix target_matrix : Matrix (Fin m) (Fin n) ℝ)
    (normalize_vectors : Bool) : Matrix (Fin n) (Fin n) ℝ :=
  let source := if normalize_vectors then normalized 2 source_matrix else source_matrix
  let target := if normalize_vectors then normalized 2 target_matrix else target_matrix
  let product := source.transpose * target
  (svd product).1 * (svd product).2.2.transpose

/-- Concrete 2-by-2 square matrices. -/
abbrev Mat2 := Matrix (Fin 2) (Fin 2) ℝ

/-- A rotation by a quarter turn; orthogonal with unit rows, and not
symmetric. -/
noncomputable def R2 : Mat2 := !![0, 1; -1, 0]

/-- An SVD oracle valid at `R2`: `R2 = 1 * diag(1,1) * R2` with both factors
orthogonal, so `(1, (1,1), R2)` is a legitimate value for
`np.linalg.svd(R2)`. -/
noncomputable def svdOracleR2 :
    Mat2 → Mat2 × (Fin 2 → ℝ) × Mat2 :=
  fun _ => (1, fun _ => 1, R2)

/-- Rows of the 2-by-2 identity have unit 2-norm. -/
theorem rowNorm_one_rows (i : Fin 2) : rowNorm 2 ((1 : Mat2) i) = 1 := by
  apply rowNorm_eq_one_of_sum
  rw [Fin.sum_univ_two]
  fin_cases i <;>
    norm_num [Matrix.one_apply, Real.zero_rpow, Real.one_rpow]

/-- Rows of `R2` have unit 2-norm. -/
theorem rowNorm_R2_rows (i : Fin 2) : rowNorm 2 (R2 i) = 1 := by
  apply rowNorm_eq_one_of_sum
  rw [Fin.sum_univ_two]
  fin_cases i <;>
    norm_num [R2, Real.zero_rpow, Real.one_rpow]

/-- Matrices with unit-norm rows pass through `normalized` unchanged. -/
theorem normalized_of_unit_rows {m n : ℕ} (a : Matrix (Fin m) (Fin n) ℝ)
    (h : ∀ i, rowNorm 2 (a i) = 1) : normalized 2 a = a := by
  ext i j
  simp [normalized, h i]

theorem normalized_one2 : normalized 2 (1 : Mat2) = 1 :=
  normalized_of_unit_rows 1 rowNorm_one_rows

theorem normalized_R2 : normalized 2 R2 = R2 :=
  normalized_of_unit_rows R2 rowNorm_R2_rows

/-- R2 is orthogonal. -/
theorem R2_orthogonal : R2.transpose * R2 = 1 := by
  ext i j
  fin_cases i <;> fin_cases j <;>
    simp [R2, Matrix.mul_apply, Fin.sum_univ_two, Matrix.one_apply,
      Matrix.transpose_apply, Matrix.vecHead, Matrix.vecTail]

/-- R2 is not symmetric. -/
theorem R2_ne_transpose : R2 ≠ R2.transpose := by
  intro h
  have h01 := congrFun (congrFun h 0) 1
  simp [R2, Matrix.transpose_apply] at h01
  exact absurd h01 (by norm_num)

/-- The claim C5 fails here: `svdOracleR2` is a legitimate SVD of the
product matrix `R2` (the factorization and both orthogonality conditions
hold), the code returns `U * Vh = R2`, but `U` times the untransposed
right-singular-vector matrix is `R2ᵗ ≠ R2`. -/
theorem C5_counterexample :
    ((normalized 2 (1 : Mat2)).transpose * normalized 2 R2 = R2 ∧
     (svdOracleR2 R2).1 * Matrix.diagonal (svdOracleR2 R2).2.1 *
        (svdOracleR2 R2).2.2 = R2 ∧
     (svdOracleR2 R2).1.transpose * (svdOracleR2 R2).1 = 1 ∧
     (svdOracleR2 R2).2.2.transpose * (svdOracleR2 R2).2.2 = 1) ∧
    learn_transformation svdOracleR2 1 R2 true = R2 ∧
    learn_transformation_claim svdOracleR2 1 R2 true = R2.transpose ∧
    learn_transformation svdOracleR2 1 R2 true ≠
      learn_transformation_claim svdOracleR2 1 R2 true := by
  have hprod : (normalized 2 (1 : Mat2)).transpose * normalized 2 R2 = R2 := by
    rw [normalized_one2, normalized_R2, Matrix.transpose_one, Matrix.one_mul]
  have hcode : learn_transformation svdOracleR2 1 R2 true = R2 := by
    simp [learn_transformation, svdOracleR2]
  have hclaim : learn_transformation_claim svdOracleR2 1 R2 true = R2.transpose := by
    simp [learn_transformation_claim, svdOracleR2]
  refine ⟨⟨hprod, ?_, ?_, R2_orthogonal⟩, hcode, hclaim, ?_⟩
  · simp [svdOracleR2, Matrix.diagonal_one]
  · simp [svdOracleR2]
  · rw [hcode, hclaim]
    exact R2_ne_transpose

/-- C5 amended: `learn_transformation` computes
`M = source_matrixᵗ × target_matrix` on the (by default row-normalized)
inputs, takes the SVD `M = U·Σ·Vh` (numpy's third output `Vh` is the
transposed right-singular-vector matrix), and returns `T = U × Vh` — that
is, `U × Vᵗ`, the right singular vectors transposed; `T` so obtained is
orthogonal. -/
theorem C5_returns_U_mul_Vh {m n : ℕ}
    (svd : Matrix (Fin n) (Fin n) ℝ →
      Matrix (Fin n) (Fin n) ℝ × (Fin n → ℝ) × Matrix (Fin n) (Fin n) ℝ)
    (source_matrix target_matrix : Matrix (Fin m) (Fin n) ℝ)
    (U : Matrix (Fin n) (Fin n) ℝ) (s : Fin n → ℝ)
    (Vh : Matrix (Fin n) (Fin n) ℝ)
    (hsvd : svd ((normalized 2 source_matrix).transpose *
      normalized 2 target_matrix) = (U, s, Vh))
    (_hdecomp : (normalized 2 source_matrix).transpose *
      normalized 2 target_matrix = U * Matrix.diagonal s * Vh)
    (hU : U.transpose * U = 1) (hVh : Vh.transpose * Vh = 1) :
    learn_transformation svd source_matrix target_matrix true = U * Vh ∧
    (learn_transformation svd source_matrix target_matrix true).transpose *
      learn_transformation svd source_matrix target_matrix true = 1 := by
  have hmain : learn_transformation svd source_matrix target_matrix true = U * Vh := by
    simp [learn_transformation, hsvd]
  refine ⟨hmain, ?_⟩
  rw [hmain, Matrix.transpose_mul, Matrix.mul_assoc,
    ← Matrix.mul_assoc U.transpose, hU, Matrix.one_mul, hVh]

/-- Witness for C5 amended with the valid oracle `svdOracleR2` at the
concrete matrices `1` and `R2`. -/
theorem C5_returns_U_mul_Vh_witness :
    svdOracleR2 ((normalized 2 (1 : Mat2)).transpose * normalized 2 R2) =
      (1, fun _ => (1 : ℝ), R2) ∧
    (learn_transformation svdOracleR2 (1 : Mat2) R2 true = 1 * R2 ∧
     (learn_transformation svdOracleR2 (1 : Mat2) R2 true).transpose *
       learn_transformation svdOracleR2 (1 : Mat2) R2 true = 1) :=
  ⟨rfl,
    C5_returns_U_mul_Vh svdOracleR2 1 R2 1 (fun _ => 1) R2 rfl
      (by simp [normalized_one2, normalized_R2, Matrix.diagonal_one])
      (by rw [Matrix.transpose_one, Matrix.one_mul])
      R2_orthogonal⟩

/-! ### Frame effect of `normalized` and `learn_transformation` (claim C9)

numpy arrays are mutable heap objects, so whether a call leaves its argument
arrays unchanged depends on which primitives write in place.  Per numpy
semantics: `np.linalg.norm`, broadcast division (`a / ...`), `np.matmul` and
`np.linalg.svd` allocate fresh result arrays; `np.atleast_1d` returns its
(already one-dimensional) argument itself; `.transpose()` is a view and
performs no write; the masked assignment `l2[l2==0] = 1` writes IN PLACE
into `l2`; and the rebindings `source_matrix = normalized(source_matrix)`
(lines 41-42) rebind local names without touching the arrays.  The heap is
modelled explicitly — cells indexed by `Nat`, references below `next` live —
with the value action of each primitive an uninterpreted operation of
`NumpyOps` (the frame property holds for every value semantics) and the
allocation/write action following the numpy semantics above.  The programs
below mirror `normalized` (lines 10-14) and `learn_transformation`
(lines 33-49) statement by statement. -/

/-- Value actions of the numpy primitives used by the two functions. -/
structure NumpyOps (α : Type) where
  normRows : α → α
  fixZeros : α → α
  divBroadcast : α → α → α
  transposeView : α → α
  matmul : α → α → α
  svd : α → α × α × α

/-- A heap of numpy arrays: cells below `next` are allocated. -/
structure NpHeap (α : Type) where
  cells : Nat → α
  next : Nat

/-- Allocation of a fresh array holding `v`; returns its reference. -/
def allocCell {α : Type} (h : NpHeap α) (v : α) : NpHeap α × Nat :=
  (⟨fun j => if j = h.next then v else h.cells j, h.next + 1⟩, h.next)

/-- In-place write to the array at reference `i`. -/
def writeCell {α : Type} (h : NpHeap α) (i : Nat) (v : α) : NpHeap α :=
  ⟨fun j => if j = i then v else h.cells j, h.next⟩

/-- Read of the array at reference `i`. -/
def readCell {α : Type} (h : NpHeap α) (i : Nat) : α := h.cells i

/-- Heap program of `normalized(a)` (`align.py` lines 10-14):
`np.linalg.norm` allocates `l2` (and `np.atleast_1d` passes it through),
`l2[l2==0] = 1` writes in place into `l2`, and the broadcast division
allocates the result. -/
def normalizedProg {α : Type} (ops : NumpyOps α) (h : NpHeap α) (a : Nat) :
    NpHeap α × Nat :=
  let p1 := allocCell h (ops.normRows (readCell h a))
  let h2 := writeCell p1.1 p1.2 (ops.fixZeros (readCell p1.1 p1.2))
  allocCell h2 (ops.divBroadcast (readCell h2 a) (readCell h2 p1.2))

/-- Heap program of `learn_transformation` (`align.py` lines 33-49): the two
optional normalizations rebind locals to freshly produced arrays, the
product, the three SVD outputs and the final product are all fresh
allocations; no statement writes to a pre-existing array. -/
def learnTransformationProg {α : Type} (ops : NumpyOps α) (h : NpHeap α)
    (source_matrix target_matrix : Nat) (normalize_vectors : Bool) :
    NpHeap α × Nat :=
  let p1 := if normalize_vectors then normalizedProg ops h source_matrix
    else (h, source_matrix)
  let p2 := if normalize_vectors then normalizedProg ops p1.1 target_matrix
    else (p1.1, target_matrix)
  let p3 := allocCell p2.1
    (ops.matmul (ops.transposeView (readCell p2.1 p1.2)) (readCell p2.1 p2.2))
  let svdTriple := ops.svd (readCell p3.1 p3.2)
  let p4 := allocCell p3.1 svdTriple.1
  let p5 := allocCell p4.1 svdTriple.2.1
  let p6 := allocCell p5.1 svdTriple.2.2
  allocCell p6.1 (ops.matmul (readCell p6.1 p4.2) (readCell p6.1 p6.2))

theorem normalizedProg_frame {α : Type} (ops : NumpyOps α) (h : NpHeap α)
    (a : Nat) : (normalizedProg ops h a).1.next = h.next + 2 ∧
    ∀ i, i < h.next → readCell (normalizedProg ops h a).1 i = readCell h i := by
  constructor
  · rfl
  · intro i hi
    simp only [normalizedProg, allocCell, writeCell, readCell]
    split_ifs <;> first | rfl | (exfalso; omega)

theorem alloc_read {α : Type} (h : NpHeap α) (v : α) {i : Nat}
    (hi : i < h.next) : readCell (allocCell h v).1 i = readCell h i := by
  simp [allocCell, readCell, Nat.ne_of_lt hi]

theorem lt_next_alloc {α : Type} (h : NpHeap α) (v : α) {i : Nat}
    (hi : i < h.next) : i < (allocCell h v).1.next :=
  Nat.lt_succ_of_lt hi

theorem lt_next_normalizedProg {α : Type} (ops : NumpyOps α) (h : NpHeap α)
    (a : Nat) {i : Nat} (hi : i < h.next) :
    i < (normalizedProg ops h a).1.next := by
  have hn := (normalizedProg_frame ops h a).1
  omega

/-- C9: `learn_transformation` leaves every pre-existing array unchanged —
in particular both its argument matrices — and so does `normalized`: the
only in-place write (`l2[l2==0] = 1`) hits the freshly allocated norm array,
and normalization rebinds locals rather than mutating the inputs.  Holds for
every value semantics `ops` of the numpy primitives. -/
theorem C9_no_argument_mutation {α : Type} (ops : NumpyOps α) (h : NpHeap α)
    (source_matrix target_matrix : Nat) (normalize_vectors : Bool) :
    (∀ i, i < h.next →
      readCell (learnTransformationProg ops h source_matrix target_matrix
        normalize_vectors).1 i = readCell h i) ∧
    (∀ i, i < h.next →
      readCell (normalizedProg ops h source_matrix).1 i = readCell h i) := by
  refine ⟨?_, (normalizedProg_frame ops h source_matrix).2⟩
  intro i hi
  cases normalize_vectors with
  | false =>
      exact Eq.trans (alloc_read _ _ (lt_next_alloc _ _ (lt_next_alloc _ _
          (lt_next_alloc _ _ (lt_next_alloc _ _ hi)))))
        (Eq.trans (alloc_read _ _ (lt_next_alloc _ _ (lt_next_alloc _ _
          (lt_next_alloc _ _ hi))))
        (Eq.trans (alloc_read _ _ (lt_next_alloc _ _ (lt_next_alloc _ _ hi)))
        (Eq.trans (alloc_read _ _ (lt_next_alloc _ _ hi))
        (alloc_read _ _ hi))))
  | true =>
      have s1 : i < (normalizedProg ops h source_matrix).1.next :=
        lt_next_normalizedProg ops h source_matrix hi
      have s2 : i < (normalizedProg ops (normalizedProg ops h source_matrix).1
          target_matrix).1.next :=
        lt_next_normalizedProg ops _ target_matrix s1
      exact Eq.trans (alloc_read _ _ (lt_next_alloc _ _ (lt_next_alloc _ _
          (lt_next_alloc _ _ (lt_next_alloc _ _ s2)))))
        (Eq.trans (alloc_read _ _ (lt_next_alloc _ _ (lt_next_alloc _ _
          (lt_next_alloc _ _ s2))))
        (Eq.trans (alloc_read _ _ (lt_next_alloc _ _ (lt_next_alloc _ _ s2)))
        (Eq.trans (alloc_read _ _ (lt_next_alloc _ _ s2))
        (Eq.trans (alloc_read _ _ s2)
        (Eq.trans ((normalizedProg_frame ops _ target_matrix).2 i s1)
          ((normalizedProg_frame ops h source_matrix).2 i hi))))))

/-- Value actions over `Nat` used by the C9 witness. -/
def opsNat : NumpyOps Nat :=
  ⟨id, id, fun a _ => a, id, fun a _ => a, fun a => (a, a, a)⟩

/-- One-cell heap used by the C9 witness. -/
def heapOne : NpHeap Nat := ⟨fun _ => 7, 1⟩

/-- Witness for C9 at a concrete heap, reference and value semantics. -/
theorem C9_no_argument_mutation_witness :
    0 < heapOne.next ∧
    readCell (learnTransformationProg opsNat heapOne 0 0 true).1 0 =
      readCell heapOne 0 ∧
    readCell (normalizedProg opsNat heapOne 0).1 0 = readCell heapOne 0 :=
  ⟨by decide,
    (C9_no_argument_mutation opsNat heapOne 0 0 true).1 0 (by decide),
    (C9_no_argument_mutation opsNat heapOne 0 0 true).2 0 (by decide)⟩

end Bornholmsk
